import Mathlib

/-!
Verification development for the PDF metadata editor
(src/pdfmetadataeditor.py).  The Python source is shallowly embedded:
strings are lists of characters, the filesystem and the metadata cache
are association lists, PDF documents are records of an opaque page list
and a metadata dictionary, and exceptions are modelled with Option
together with explicit fault-injection flags for the I/O steps that can
fail.  Every definition is translated from the source file; theorems
below settle the frozen claims about that source.
-/

namespace PdfMetaEditor

/-- Strings of the Python program, modelled as lists of characters. -/
abbrev Str := List Char

/-- Characters stripped by Python str.strip() with no argument
(ASCII whitespace as relevant to this program). -/
def pyIsSpace (c : Char) : Bool :=
  c = ' ' || c = '\t' || c = '\n' || c = '\r' || c = '\x0b' || c = '\x0c'

/-- Python str.strip(): drop leading and trailing whitespace. -/
def pyStrip (s : Str) : Str :=
  ((s.dropWhile pyIsSpace).reverse.dropWhile pyIsSpace).reverse

/-- The literal separator " - " of the regex in
extract_metadata_from_filename (line 21 of the source). -/
def sepStr : Str := [' ', '-', ' ']

/-- The literal extension ".pdf" of the same regex (lowercase: the
source compiles the pattern without re.IGNORECASE). -/
def pdfExt : Str := ['.', 'p', 'd', 'f']

/-- Semantics of the Python regex fragment "(.+?)\.pdf$" applied to
`rest`: the group is non-greedy, `.` does not match a newline, and `$`
matches at the end of the string or just before one final newline.
Because the pattern must consume `rest` to its anchored end, the match
succeeds exactly when `rest` is the group followed by ".pdf" and an
optional final newline, with the group non-empty and newline-free. -/
def matchTail (rest : Str) : Option Str :=
  if pdfExt <:+ rest then
    let g := rest.take (rest.length - 4)
    if g = [] ∨ '\n' ∈ g then none else some g
  else if pdfExt ++ ['\n'] <:+ rest then
    let g := rest.take (rest.length - 5)
    if g = [] ∨ '\n' ∈ g then none else some g
  else none

/-- Semantics of the full Python regex "(.+?) - (.+?)\.pdf$" matched by
re.match: scan left to right growing the first (non-greedy, non-empty,
newline-free) group one character at a time; at each boundary, if the
literal " - " follows and the remainder matches "(.+?)\.pdf$", the match
succeeds with those two groups; otherwise the first group keeps
growing.  A newline stops the scan because `.` cannot cross it. -/
def findSplit : Str → Str → Option (Str × Str)
  | _, [] => none
  | pre, c :: rest =>
    if c = '\n' then none
    else if sepStr <+: rest then
      match matchTail (rest.drop 3) with
      | some g2 => some (pre ++ [c], g2)
      | none => findSplit (pre ++ [c]) rest
    else findSplit (pre ++ [c]) rest

/-- os.path.splitext(filename)[0] for a bare filename (no directory
separator): strip the extension that starts at the last dot, unless
every character before that dot is itself a dot (leading-dot rule). -/
def splitextRoot (f : Str) : Str :=
  match f.reverse.findIdx? (fun c => c = '.') with
  | none => f
  | some j =>
    let i := f.length - 1 - j
    if (f.take i).all (fun c => c = '.') then f else f.take i

/-- extract_metadata_from_filename (source lines 18-24): on a regex
match return the two stripped groups, otherwise return an empty first
component and the filename without its extension. -/
def extract_metadata_from_filename (filename : Str) : Str × Str :=
  match findSplit [] filename with
  | some (g1, g2) => (pyStrip g1, pyStrip g2)
  | none => ([], splitextRoot filename)


/-! ### Data model: documents, filesystem, cache -/

/-- A PDF document as the program observes it: an opaque list of pages
(the rewriter copies them wholesale with add_page) and a metadata
dictionary mapping keys such as "/Title" to string values. -/
structure PDFDoc where
  pages : List Nat
  metadata : List (Str × Str)
deriving DecidableEq

/-- On-disk content of a path: either a parseable PDF or bytes that
PdfReader rejects with an exception (corrupt, encrypted, partial). -/
inductive FileContent where
  | pdf (d : PDFDoc)
  | corrupt (bytes : List Nat)
deriving DecidableEq

/-- The filesystem: an association list from paths to file contents. -/
abbrev FS := List (Str × FileContent)

/-- The metadata cache self.pdf_cache: path to (title, author). -/
abbrev Cache := List (Str × (Str × Str))

/-- Association-list lookup (first entry with the key wins). -/
def alGet {β : Type} (l : List (Str × β)) (k : Str) : Option β :=
  (l.find? (fun e => decide (e.1 = k))).map (fun e => e.2)

/-- Association-list removal of a key. -/
def alRemove {β : Type} (l : List (Str × β)) (k : Str) : List (Str × β) :=
  l.filter (fun e => decide (e.1 ≠ k))

/-- Association-list update: create the key or overwrite its value. -/
def alSet {β : Type} (l : List (Str × β)) (k : Str) (v : β) : List (Str × β) :=
  (k, v) :: alRemove l k


/-- Metadata-dictionary lookup with Python's info.get(key, "") default. -/
def metaGet (md : List (Str × Str)) (k : Str) : Str :=
  match alGet md k with
  | some v => v
  | none => []

/-- The key "/Title". -/
def titleKey : Str := ("/Title").data

/-- The key "/Author". -/
def authorKey : Str := ("/Author").data

/-- PdfReader(path) followed by info.get("/Title","").strip() and
info.get("/Author","").strip() (source lines 32-34); none models the
exception raised for a missing or unparsable file. -/
def readPdfMetadata (fs : FS) (p : Str) : Option (Str × Str) :=
  match alGet fs p with
  | some (FileContent.pdf d) =>
    some (pyStrip (metaGet d.metadata titleKey), pyStrip (metaGet d.metadata authorKey))
  | some (FileContent.corrupt _) => none
  | none => none

/-- Outcome of one call to extract_metadata_from_pdf_safe: the cache
after the call, the returned pair, whether the file was actually opened
(a cache miss), and whether a failure line was printed. -/
structure ExtractResult where
  cache : Cache
  result : Str × Str
  didRead : Bool
  logged : Bool
deriving DecidableEq

/-- extract_metadata_from_pdf_safe (source lines 26-41): serve the
cache when possible, otherwise read the file; any exception degrades to
("", ""), is printed once, and the result (fresh or degraded) is cached. -/
def extract_metadata_from_pdf_safe (cache : Cache) (fs : FS) (p : Str) : ExtractResult :=
  match alGet cache p with
  | some r => ⟨cache, r, false, false⟩
  | none =>
    match readPdfMetadata fs p with
    | some r => ⟨alSet cache p r, r, true, false⟩
    | none => ⟨alSet cache p ([], []), ([], []), true, true⟩

/-- A run of successive extractor calls against a fixed filesystem,
threading the cache; returns the final cache and the list of paths for
which a failure was printed, in order. -/
def runExtracts : Cache → FS → List Str → Cache × List Str
  | cache, _, [] => (cache, [])
  | cache, fs, p :: rest =>
    let r := extract_metadata_from_pdf_safe cache fs p
    let out := runExtracts r.cache fs rest
    (out.1, (if r.logged then [p] else []) ++ out.2)

/-- Number of occurrences of a path in a list of paths. -/
def countOcc (p : Str) (l : List Str) : Nat :=
  (l.filter (fun q => decide (q = p))).length

/-! ### The batch rewriter -/

/-- Mutable state threaded through the rewriter: the filesystem plus
the metadata cache self.pdf_cache. -/
structure RWState where
  fs : FS
  cache : Cache
deriving DecidableEq

/-- Fault injection for the three fallible steps of update_single that
happen before the atomic replace: an I/O or parse exception while
reading the document, while building the new document, or while opening
and writing the temporary file.  tempLeftover gives the bytes of a
partially written temporary file (none when the failure happened before
anything reached the disk). -/
structure FaultSpec where
  readFails : Bool
  constructFails : Bool
  serializeFails : Bool
  tempLeftover : Option (List Nat)
deriving DecidableEq

/-- The fault specification of an undisturbed run. -/
def noFault : FaultSpec := ⟨false, false, false, none⟩

/-- The reserved suffix ".temp.pdf" appended to the document path
(source line 119). -/
def tempSuffix : Str := (".temp.pdf").data

/-- The temporary sibling path used by update_single. -/
def temp_path (path : Str) : Str := path ++ tempSuffix

/-- update_single (source lines 101-130): read the document, build a
new one with the same pages and only the requested Title/Author
metadata, serialize it to the temporary sibling path, atomically
replace the original, and update the cache.  Any exception is caught:
the function returns false and nothing else happens — in particular a
partially written temporary file is not removed. -/
def update_single (fault : FaultSpec) (st : RWState) (path title author : Str) :
    RWState × Bool :=
  let readResult : Option PDFDoc :=
    if fault.readFails then none
    else
      match alGet st.fs path with
      | some (FileContent.pdf d) => some d
      | _ => none
  match readResult with
  | none => (st, false)
  | some d =>
    if fault.constructFails then (st, false)
    else
      let newDoc : PDFDoc := ⟨d.pages, [(titleKey, title), (authorKey, author)]⟩
      if fault.serializeFails then
        match fault.tempLeftover with
        | some bs => (⟨alSet st.fs (temp_path path) (FileContent.corrupt bs), st.cache⟩, false)
        | none => (st, false)
      else
        let fs1 := alSet st.fs (temp_path path) (FileContent.pdf newDoc)
        let fs2 := alRemove (alSet fs1 path (FileContent.pdf newDoc)) (temp_path path)
        (⟨fs2, alSet st.cache path (title, author)⟩, true)

/-- update_pdf_metadata_batch (source lines 99-139): run update_single
on every request and return the number of successes; each request
carries its fault injection.  The source's two-worker pool is modelled
by the sequential interleaving, which the requests' independence makes
representative. -/
def update_pdf_metadata_batch (st : RWState) :
    List (FaultSpec × Str × Str × Str) → RWState × Nat
  | [] => (st, 0)
  | u :: rest =>
    let r := update_single u.1 st u.2.1 u.2.2.1 u.2.2.2
    let out := update_pdf_metadata_batch r.1 rest
    (out.1, (if r.2 then 1 else 0) + out.2)

/-- The value the Python function actually returns to its caller:
only the count of successful updates. -/
def batchReturn (st : RWState) (updates : List (FaultSpec × Str × Str × Str)) : Nat :=
  (update_pdf_metadata_batch st updates).2

/-- Specification-side ghost run of the same batch that additionally
records the per-path outcome of every request; used to compare the
code's return value with the per-path report the spec asks for. -/
def batchOutcomes (st : RWState) :
    List (FaultSpec × Str × Str × Str) → RWState × List (Str × Bool)
  | [] => (st, [])
  | u :: rest =>
    let r := update_single u.1 st u.2.1 u.2.2.1 u.2.2.2
    let out := batchOutcomes r.1 rest
    (out.1, (u.2.1, r.2) :: out.2)

/-- refresh_data (source lines 202-211) as it affects the core state:
self.pdf_cache.clear() before the rescan. -/
def refresh_data (st : RWState) : RWState := ⟨st.fs, []⟩

/-! ### Scan and reconciliation pipeline -/

/-- One reconciled record (the dictionary built in process_single_pdf,
source lines 51-58). -/
structure PdfRecord where
  path : Str
  filename : Str
  fn_title : Str
  fn_author : Str
  meta_title : Str
  meta_author : Str
deriving DecidableEq

/-- os.path.join(root, f) for the arguments this program produces. -/
def os_path_join (root f : Str) : Str :=
  if f.head? = some '/' then f
  else if root = [] then f
  else if root.getLast? = some '/' then root ++ f
  else root ++ '/' :: f

/-- process_single_pdf (source lines 43-58).  Note the assignment on
source line 48: the first regex group becomes fn_author and the second
becomes fn_title. -/
def process_single_pdf (cache : Cache) (fs : FS) (root filename : Str) :
    Cache × PdfRecord :=
  let full_path := os_path_join root filename
  let fn := extract_metadata_from_filename filename
  let r := extract_metadata_from_pdf_safe cache fs full_path
  (r.cache, ⟨full_path, filename, fn.2, fn.1, r.result.1, r.result.2⟩)

/-- The scanner's filter f.lower().endswith(".pdf") (source line 70). -/
def pdfNameFilter (f : Str) : Bool :=
  decide (pdfExt <:+ f.map Char.toLower)

/-- First pass of collect_pdfs_recursively (source lines 68-71): from
the os.walk output — a list of (directory, filenames) pairs — keep the
names passing the filter, tagged with their directory. -/
def collectFileList (walk : List (Str × List Str)) : List (Str × Str) :=
  (walk.map (fun rf => (rf.2.filter pdfNameFilter).map (fun f => (rf.1, f)))).flatten

/-- Second pass of collect_pdfs_recursively (source lines 79-95):
process every file, collecting the records and emitting a
(completed, total) progress pair after each completion; the worker pool
is modelled by the sequential interleaving. -/
def processLoop (fs : FS) : Cache → Nat → Nat → List (Str × Str) →
    Cache × (List PdfRecord × List (Nat × Nat))
  | cache, _, _, [] => (cache, ([], []))
  | cache, total, completed, fi :: rest =>
    let pr := process_single_pdf cache fs fi.1 fi.2
    let out := processLoop fs pr.1 total (completed + 1) rest
    (out.1, (pr.2 :: out.2.1, (completed + 1, total) :: out.2.2))

/-- collect_pdfs_recursively (source lines 60-97): returns the final
cache, the records, and the emitted progress pairs. -/
def collect_pdfs_recursively (cache : Cache) (fs : FS) (walk : List (Str × List Str)) :
    Cache × (List PdfRecord × List (Nat × Nat)) :=
  let file_list := collectFileList walk
  processLoop fs cache file_list.length 0 file_list

/-! ### Result-table functions -/

/-- A row of the result table: (fn_title, fn_author, meta_title,
meta_author), exactly the tuple built on source line 292. -/
abbrev Row := Str × Str × Str × Str

/-- The mismatch computation of show_results (source line 294):
row[0] != row[2] or row[1] != row[3]. -/
def mismatch_of (row : Row) : Bool :=
  decide (row.1 ≠ row.2.2.1) || decide (row.2.1 ≠ row.2.2.2)

/-- The row of a record as inserted into the table (source line 292). -/
def rowOf (r : PdfRecord) : Row :=
  (r.fn_title, r.fn_author, r.meta_title, r.meta_author)

/-- swap_fn_title_author (source lines 281-287): exchange the first two
cells of the row; nothing else about the item is recomputed. -/
def swap_fn_title_author (row : Row) : Row :=
  (row.2.1, row.1, row.2.2.1, row.2.2.2)

/-- The per-row update test of fix_selected_metadata (source line 349):
fn_title != meta_title or fn_author != meta_author, evaluated on the
values the tree currently displays. -/
def shouldUpdate (row : Row) : Bool :=
  decide (row.1 ≠ row.2.2.1) || decide (row.2.1 ≠ row.2.2.2)


/-- Whether the path currently holds a parseable PDF. -/
def isPdfAt (fs : FS) (p : Str) : Bool :=
  match alGet fs p with
  | some (FileContent.pdf _) => true
  | _ => false

/-- The rewrite of this request fails at one of steps 1-3 (read,
construct, serialize), before the atomic replace. -/
def failsEarly (fault : FaultSpec) (fs : FS) (path : Str) : Bool :=
  fault.readFails || !(isPdfAt fs path) || fault.constructFails || fault.serializeFails

/-- The filesystem of the spec's end-to-end scenario: a folder "d"
holding "Alice - BookOne.pdf" with embedded Title "Wrong" and Author
"Alice", and "NoPattern.pdf" with empty embedded fields. -/
def scenarioFS : FS :=
  [((("d/Alice - BookOne.pdf").data),
     FileContent.pdf ⟨[1], [(titleKey, ("Wrong").data), (authorKey, ("Alice").data)]⟩),
   ((("d/NoPattern.pdf").data),
     FileContent.pdf ⟨[2], [(titleKey, []), (authorKey, [])]⟩)]

/-- The os.walk output for that folder. -/
def scenarioWalk : List (Str × List Str) :=
  [((("d").data), [("Alice - BookOne.pdf").data, ("NoPattern.pdf").data])]

/-- The records produced by scanning the scenario folder. -/
def scenarioRecords : List PdfRecord :=
  (collect_pdfs_recursively [] scenarioFS scenarioWalk).2.1

/-! ### Theorems for the claims -/

/-! Sanity checks of the embedding on concrete inputs. -/

example : extract_metadata_from_filename (("Alice - BookOne.pdf").data)
    = (("Alice").data, ("BookOne").data) := by decide

example : extract_metadata_from_filename (("NoPattern.pdf").data)
    = ([], ("NoPattern").data) := by decide

example : extract_metadata_from_filename (("A - B.PDF").data)
    = ([], ("A - B").data) := by decide

example : extract_metadata_from_filename (("A - B - C.pdf").data)
    = (("A").data, ("B - C").data) := by decide

example : extract_metadata_from_filename (("A - .pdf").data)
    = ([], ("A - ").data) := by decide

example : extract_metadata_from_filename (("  A  -  B .pdf").data)
    = (("A").data, ("B").data) := by decide

example : extract_metadata_from_filename ((" A - B .pdf").data)
    = (("A").data, ("B").data) := by decide

example :
    (update_single noFault
      ⟨[(("a.pdf").data, FileContent.pdf ⟨[7], [(titleKey, ("x").data)]⟩)], []⟩
      (("a.pdf").data) (("T").data) (("A").data)).2 = true := by decide

example :
    alGet (collect_pdfs_recursively []
      [(("d/Alice - BookOne.pdf").data,
         FileContent.pdf ⟨[1], [(titleKey, ("Wrong").data), (authorKey, ("Alice").data)]⟩),
       (("d/NoPattern.pdf").data,
         FileContent.pdf ⟨[2], [(titleKey, []), (authorKey, [])]⟩)]
      [(("d").data, [("Alice - BookOne.pdf").data, ("NoPattern.pdf").data])]).1
      (("d/Alice - BookOne.pdf").data) = some (("Wrong").data, ("Alice").data) := by decide

theorem alGet_cons {β : Type} (a : Str) (b : β) (t : List (Str × β)) (k : Str) :
    alGet ((a, b) :: t) k = if a = k then some b else alGet t k := by
  by_cases h : a = k
  · rw [if_pos h]; simp only [alGet]
    rw [List.find?_cons_of_pos _ (by simpa using h)]
    rfl
  · rw [if_neg h]; simp only [alGet]
    rw [List.find?_cons_of_neg _ (by simpa using h)]

theorem alGet_alRemove_ne {β : Type} (l : List (Str × β)) (k k' : Str)
    (h : k' ≠ k) : alGet (alRemove l k) k' = alGet l k' := by
  induction l with
  | nil => rfl
  | cons e t ih =>
    obtain ⟨a, b⟩ := e
    by_cases he : a = k
    · rw [show alRemove ((a, b) :: t) k = alRemove t k from
        List.filter_cons_of_neg (by simpa using he)]
      rw [ih, alGet_cons, if_neg (fun hk => h (hk.symm.trans he))]
    · rw [show alRemove ((a, b) :: t) k = (a, b) :: alRemove t k from
        List.filter_cons_of_pos (by simpa using he)]
      rw [alGet_cons, alGet_cons, ih]

theorem alGet_alSet_self {β : Type} (l : List (Str × β)) (k : Str) (v : β) :
    alGet (alSet l k v) k = some v := by
  rw [alSet, alGet_cons, if_pos rfl]

theorem alGet_alSet_ne {β : Type} (l : List (Str × β)) (k k' : Str) (v : β)
    (h : k' ≠ k) : alGet (alSet l k v) k' = alGet l k' := by
  rw [alSet, alGet_cons, if_neg (fun hk => h hk.symm), alGet_alRemove_ne _ _ _ h]


/-- C2: immediately after every successful rewrite the cache entry for
the path equals the new (title, author) pair; after a rescan request
the cache is cleared in full, so the very next extraction for any path
opens the underlying file and its result is the fresh file contents,
not a previously cached value. -/
theorem C2_cache_never_stale :
    (∀ (fault : FaultSpec) (st : RWState) (path title author : Str),
        (update_single fault st path title author).2 = true →
        alGet (update_single fault st path title author).1.cache path
          = some (title, author)) ∧
    (∀ st : RWState, (refresh_data st).cache = []) ∧
    (∀ (st : RWState) (p : Str),
        (extract_metadata_from_pdf_safe (refresh_data st).cache st.fs p).didRead = true) ∧
    (∀ (st : RWState) (p : Str),
        (extract_metadata_from_pdf_safe (refresh_data st).cache st.fs p).result =
          match readPdfMetadata st.fs p with
          | some r => r
          | none => ([], [])) := by
  refine ⟨?_, fun _ => rfl, ?_, ?_⟩
  · intro fault st path title author hsucc
    cases h1 : fault.readFails with
    | true => simp [update_single, h1] at hsucc
    | false =>
    cases hget : alGet st.fs path with
    | none => simp [update_single, h1, hget] at hsucc
    | some fc =>
    cases fc with
    | corrupt b => simp [update_single, h1, hget] at hsucc
    | pdf d =>
    cases h2 : fault.constructFails with
    | true => simp [update_single, h1, hget, h2] at hsucc
    | false =>
    cases h3 : fault.serializeFails with
    | true => cases h4 : fault.tempLeftover <;>
        simp [update_single, h1, hget, h2, h3, h4] at hsucc
    | false => simp [update_single, h1, hget, h2, h3, alGet_alSet_self]
  · intro st p
    cases hr : readPdfMetadata st.fs p <;>
      simp [refresh_data, extract_metadata_from_pdf_safe, alGet, hr]
  · intro st p
    cases hr : readPdfMetadata st.fs p <;>
      simp [refresh_data, extract_metadata_from_pdf_safe, alGet, hr]

/-- Closed instance of C2_cache_never_stale: a successful concrete
rewrite leaves the cache holding the new pair. -/
theorem C2_witness :
    alGet (update_single noFault
        ⟨[(("a.pdf").data, FileContent.pdf ⟨[7], []⟩)], []⟩
        (("a.pdf").data) (("T").data) (("A").data)).1.cache (("a.pdf").data)
      = some ((("T").data), (("A").data)) :=
  C2_cache_never_stale.1 noFault
    ⟨[(("a.pdf").data, FileContent.pdf ⟨[7], []⟩)], []⟩
    (("a.pdf").data) (("T").data) (("A").data) (by decide)

/-- C9: the table's mismatch flag is true exactly when the filename
candidate and the document candidate differ field-wise, and the update
test run after a swap is the same computation applied to the swapped,
current field values (not a value remembered from before the swap). -/
theorem C9_mismatch_recomputed :
    (∀ row : Row, mismatch_of row = true ↔
        (row.1, row.2.1) ≠ (row.2.2.1, row.2.2.2)) ∧
    (∀ row : Row, shouldUpdate (swap_fn_title_author row)
        = mismatch_of (swap_fn_title_author row)) ∧
    (∀ row : Row, (swap_fn_title_author row).1 = row.2.1 ∧
        (swap_fn_title_author row).2.1 = row.1) := by
  refine ⟨?_, fun _ => rfl, fun _ => ⟨rfl, rfl⟩⟩
  intro row
  simp only [mismatch_of, Bool.or_eq_true, decide_eq_true_eq, ne_eq, Prod.mk.injEq,
    not_and_or]

/-- C10: the rewriter's temporary sibling path is exactly the document
path followed by ".temp.pdf"; that name passes the scanner's
case-insensitive ".pdf" filter, so a leftover temporary file inside a
scanned directory is discovered by a subsequent scan. -/
theorem C10_temp_file_scanned :
    (∀ path : Str, temp_path path = path ++ ((".temp.pdf").data)) ∧
    (∀ path : Str, pdfNameFilter (temp_path path) = true) ∧
    (∀ (walk : List (Str × List Str)) (root path : Str) (fl : List Str),
        (root, fl) ∈ walk → temp_path path ∈ fl →
        (root, temp_path path) ∈ collectFileList walk) := by
  have hfilter : ∀ path : Str, pdfNameFilter (temp_path path) = true := by
    intro path
    have hmap : (temp_path path).map Char.toLower
        = path.map Char.toLower ++ tempSuffix := by
      rw [temp_path, List.map_append]
      have : tempSuffix.map Char.toLower = tempSuffix := by decide
      rw [this]
    have hsuffix : pdfExt <:+ (temp_path path).map Char.toLower := by
      rw [hmap]
      exact List.IsSuffix.trans (by decide) (List.suffix_append _ _)
    simpa [pdfNameFilter] using hsuffix
  refine ⟨fun _ => rfl, hfilter, ?_⟩
  intro walk root path fl hwalk hmem
  rw [collectFileList, List.mem_flatten]
  refine ⟨(fl.filter pdfNameFilter).map (fun f => (root, f)), ?_, ?_⟩
  · exact List.mem_map_of_mem _ hwalk
  · exact List.mem_map_of_mem _ (List.mem_filter.mpr ⟨hmem, hfilter path⟩)

theorem countOcc_append (p : Str) (l1 l2 : List Str) :
    countOcc p (l1 ++ l2) = countOcc p l1 + countOcc p l2 := by
  simp [countOcc, List.filter_append]

theorem extract_cache_keeps (cache : Cache) (fs : FS) (q p : Str)
    (h : (alGet cache p).isSome) :
    (alGet (extract_metadata_from_pdf_safe cache fs q).cache p).isSome := by
  cases hq : alGet cache q with
  | some r => simpa [extract_metadata_from_pdf_safe, hq] using h
  | none =>
    by_cases hpq : p = q
    · subst hpq
      cases hr : readPdfMetadata fs p <;>
        simp [extract_metadata_from_pdf_safe, hq, hr, alGet_alSet_self]
    · cases hr : readPdfMetadata fs q <;>
        simpa [extract_metadata_from_pdf_safe, hq, hr, alGet_alSet_ne _ _ _ _ hpq]
          using h

theorem extract_cache_none_ne (cache : Cache) (fs : FS) (q p : Str)
    (hpq : p ≠ q) (hnone : alGet cache p = none) :
    alGet (extract_metadata_from_pdf_safe cache fs q).cache p = none := by
  cases hq : alGet cache q with
  | some r => simpa [extract_metadata_from_pdf_safe, hq] using hnone
  | none =>
    cases hr : readPdfMetadata fs q <;>
      simpa [extract_metadata_from_pdf_safe, hq, hr, alGet_alSet_ne _ _ _ _ hpq]
        using hnone

theorem extract_logged_false_of_cached (cache : Cache) (fs : FS) (p : Str)
    (h : (alGet cache p).isSome) :
    (extract_metadata_from_pdf_safe cache fs p).logged = false := by
  cases hq : alGet cache p with
  | some r => simp [extract_metadata_from_pdf_safe, hq]
  | none => rw [hq] at h; cases h

theorem runExtracts_no_log_of_cached (fs : FS) (calls : List Str) :
    ∀ (cache : Cache) (p : Str), (alGet cache p).isSome →
      countOcc p (runExtracts cache fs calls).2 = 0 := by
  induction calls with
  | nil => intro cache p _; rfl
  | cons q rest ih =>
    intro cache p h
    simp only [runExtracts]
    rw [countOcc_append]
    have h2 := ih (extract_metadata_from_pdf_safe cache fs q).cache p
      (extract_cache_keeps cache fs q p h)
    by_cases hpq : p = q
    · subst hpq
      rw [extract_logged_false_of_cached cache fs p h]
      simpa [countOcc] using h2
    · have hq1 : ∀ b : Bool, countOcc p (if b then [q] else []) = 0 := by
        intro b
        cases b
        · rfl
        · simp [countOcc, Ne.symm hpq]
      rw [hq1, h2]

theorem runExtracts_log_once (fs : FS) (p : Str)
    (hfail : readPdfMetadata fs p = none) (calls : List Str) :
    ∀ cache : Cache, alGet cache p = none → p ∈ calls →
      countOcc p (runExtracts cache fs calls).2 = 1 := by
  induction calls with
  | nil => intro cache _ hmem; cases hmem
  | cons q rest ih =>
    intro cache hnone hmem
    simp only [runExtracts]
    rw [countOcc_append]
    by_cases hpq : p = q
    · subst hpq
      have he : extract_metadata_from_pdf_safe cache fs p
          = ⟨alSet cache p ([], []), ([], []), true, true⟩ := by
        simp [extract_metadata_from_pdf_safe, hnone, hfail]
      rw [he]
      have hz := runExtracts_no_log_of_cached fs rest (alSet cache p ([], [])) p
        (by rw [alGet_alSet_self]; rfl)
      show countOcc p [p] + countOcc p (runExtracts (alSet cache p ([], [])) fs rest).2 = 1
      rw [hz]
      simp [countOcc]
    · have hmem2 : p ∈ rest := by
        cases List.mem_cons.mp hmem with
        | inl h => exact (hpq h).elim
        | inr h => exact h
      have h2 := ih (extract_metadata_from_pdf_safe cache fs q).cache
        (extract_cache_none_ne cache fs q p hpq hnone) hmem2
      have hq1 : ∀ b : Bool, countOcc p (if b then [q] else []) = 0 := by
        intro b
        cases b
        · rfl
        · simp [countOcc, Ne.symm hpq]
      rw [hq1, h2]

/-- C3: the extractor is total — its embedding returns a result for
every path; when the underlying read fails and the path is not yet
cached it returns the empty pair, prints the failure, and caches the
empty pair so that a following call for the same path does not reopen
the file; and over any sequence of calls within one cache epoch a
failing path is logged exactly once. -/
theorem C3_extractor_safe (cache : Cache) (fs : FS) (p : Str) (calls : List Str)
    (hmiss : alGet cache p = none) (hfail : readPdfMetadata fs p = none)
    (hmem : p ∈ calls) :
    (extract_metadata_from_pdf_safe cache fs p).result = ([], []) ∧
    (extract_metadata_from_pdf_safe cache fs p).logged = true ∧
    (extract_metadata_from_pdf_safe
        (extract_metadata_from_pdf_safe cache fs p).cache fs p).didRead = false ∧
    (extract_metadata_from_pdf_safe
        (extract_metadata_from_pdf_safe cache fs p).cache fs p).result = ([], []) ∧
    countOcc p (runExtracts cache fs calls).2 = 1 := by
  have he : extract_metadata_from_pdf_safe cache fs p
      = ⟨alSet cache p ([], []), ([], []), true, true⟩ := by
    simp [extract_metadata_from_pdf_safe, hmiss, hfail]
  refine ⟨by rw [he], by rw [he], ?_, ?_, runExtracts_log_once fs p hfail calls cache hmiss hmem⟩
  · rw [he]
    simp [extract_metadata_from_pdf_safe, alGet_alSet_self]
  · rw [he]
    simp [extract_metadata_from_pdf_safe, alGet_alSet_self]

/-- Closed instance of C3_extractor_safe: a concrete corrupt file
yields the empty pair, one log line, and a cached second call. -/
theorem C3_witness :
    (extract_metadata_from_pdf_safe []
        [((("bad.pdf").data), FileContent.corrupt [9])] (("bad.pdf").data)).result
      = ([], []) ∧
    countOcc (("bad.pdf").data)
      (runExtracts [] [((("bad.pdf").data), FileContent.corrupt [9])]
        [(("bad.pdf").data), (("bad.pdf").data)]).2 = 1 := by
  have h := C3_extractor_safe []
    [((("bad.pdf").data), FileContent.corrupt [9])] (("bad.pdf").data)
    [(("bad.pdf").data), (("bad.pdf").data)] (by decide) (by decide) (by decide)
  exact ⟨h.1, h.2.2.2.2⟩

theorem temp_path_ne (path : Str) : path ≠ temp_path path := by
  intro h
  have hlen := congrArg List.length h
  rw [temp_path, List.length_append] at hlen
  have h9 : tempSuffix.length = 9 := by decide
  omega


/-- C1 is false as stated: after a failure while serializing the
temporary file, the partially written temporary file is not discarded —
it remains on disk (the source's except clause has no cleanup). -/
theorem C1_counterexample :
    (update_single ⟨false, false, true, some [1, 2, 3]⟩
        ⟨[((("a.pdf").data), FileContent.pdf ⟨[0], []⟩)], []⟩
        (("a.pdf").data) (("T").data) (("A").data)).2 = false ∧
    alGet (update_single ⟨false, false, true, some [1, 2, 3]⟩
        ⟨[((("a.pdf").data), FileContent.pdf ⟨[0], []⟩)], []⟩
        (("a.pdf").data) (("T").data) (("A").data)).1.fs
        (temp_path (("a.pdf").data))
      = some (FileContent.corrupt [1, 2, 3]) := by decide

/-- C1 (amended): when a rewrite fails at the read, construct, or
serialize step, the original file at that path is byte-for-byte
untouched, the request is reported as failed, and the remaining
requests of the batch are still processed (the failing request adds
nothing to the success count); however, a partially written temporary
file is not discarded — it may remain on disk. -/
theorem C1_failure_isolated (fault : FaultSpec) (st : RWState)
    (path title author : Str) (rest : List (FaultSpec × Str × Str × Str))
    (h : failsEarly fault st.fs path = true) :
    alGet (update_single fault st path title author).1.fs path = alGet st.fs path ∧
    (update_single fault st path title author).2 = false ∧
    batchReturn st ((fault, path, title, author) :: rest)
      = batchReturn (update_single fault st path title author).1 rest := by
  have hmain : alGet (update_single fault st path title author).1.fs path
        = alGet st.fs path ∧
      (update_single fault st path title author).2 = false := by
    cases h1 : fault.readFails with
    | true => simp [update_single, h1]
    | false =>
    cases hget : alGet st.fs path with
    | none => simp [update_single, h1, hget]
    | some fc =>
    cases fc with
    | corrupt b => simp [update_single, h1, hget]
    | pdf d =>
    cases h2 : fault.constructFails with
    | true => simp [update_single, h1, hget, h2]
    | false =>
    cases h3 : fault.serializeFails with
    | false =>
      rw [failsEarly, h1, h2, h3, isPdfAt, hget] at h
      simp at h
    | true =>
      cases h4 : fault.tempLeftover with
      | none => simp [update_single, h1, hget, h2, h3, h4]
      | some bs =>
        have hu : update_single fault st path title author
            = (⟨alSet st.fs (temp_path path) (FileContent.corrupt bs), st.cache⟩, false) := by
          simp [update_single, h1, hget, h2, h3, h4]
        rw [hu, ← hget]
        exact ⟨alGet_alSet_ne _ _ _ _ (temp_path_ne path), rfl⟩
  refine ⟨hmain.1, hmain.2, ?_⟩
  simp only [batchReturn, update_pdf_metadata_batch]
  rw [hmain.2]
  simp

/-- Closed instance of C1_failure_isolated: a concrete serialize
failure leaves the original bytes in place, counts as a failure, and
the following request still runs. -/
theorem C1_witness :
    alGet (update_single ⟨false, false, true, some [9]⟩
        ⟨[((("a.pdf").data), FileContent.pdf ⟨[0], []⟩)], []⟩
        (("a.pdf").data) (("T").data) (("A").data)).1.fs (("a.pdf").data)
      = alGet [((("a.pdf").data), FileContent.pdf ⟨[0], []⟩)] (("a.pdf").data) :=
  (C1_failure_isolated ⟨false, false, true, some [9]⟩
    ⟨[((("a.pdf").data), FileContent.pdf ⟨[0], []⟩)], []⟩
    (("a.pdf").data) (("T").data) (("A").data) [] (by decide)).1

/-- C5 is false as stated: a successful rewrite does not preserve the
other metadata fields — the new document's dictionary holds only the
requested Title and Author, so the original /Subject entry is lost. -/
theorem C5_counterexample :
    (update_single noFault
        ⟨[((("b.pdf").data), FileContent.pdf ⟨[1],
            [(titleKey, ("t").data), (authorKey, ("a").data),
             ((("/Subject").data), ("s").data)]⟩)], []⟩
        (("b.pdf").data) (("T").data) (("A").data)).2 = true ∧
    alGet (update_single noFault
        ⟨[((("b.pdf").data), FileContent.pdf ⟨[1],
            [(titleKey, ("t").data), (authorKey, ("a").data),
             ((("/Subject").data), ("s").data)]⟩)], []⟩
        (("b.pdf").data) (("T").data) (("A").data)).1.fs (("b.pdf").data)
      = some (FileContent.pdf
          ⟨[1], [(titleKey, ("T").data), (authorKey, ("A").data)]⟩) ∧
    (("s").data : Str) ≠ [] := by decide

/-- C5 (amended): a successful rewrite stores at the original path a
document with page content identical to the original and a metadata
dictionary containing exactly the requested Title and Author; metadata
fields other than Title and Author are dropped, not preserved. -/
theorem C5_rewrite_result (fault : FaultSpec) (st : RWState)
    (path title author : Str) (d : PDFDoc)
    (hd : alGet st.fs path = some (FileContent.pdf d))
    (hsucc : (update_single fault st path title author).2 = true) :
    alGet (update_single fault st path title author).1.fs path
      = some (FileContent.pdf ⟨d.pages, [(titleKey, title), (authorKey, author)]⟩) := by
  cases h1 : fault.readFails with
  | true => simp [update_single, h1] at hsucc
  | false =>
  cases h2 : fault.constructFails with
  | true => simp [update_single, h1, hd, h2] at hsucc
  | false =>
  cases h3 : fault.serializeFails with
  | true => cases h4 : fault.tempLeftover <;>
      simp [update_single, h1, hd, h2, h3, h4] at hsucc
  | false =>
    have hu : update_single fault st path title author
        = (⟨alRemove (alSet
              (alSet st.fs (temp_path path)
                (FileContent.pdf ⟨d.pages, [(titleKey, title), (authorKey, author)]⟩))
              path (FileContent.pdf ⟨d.pages, [(titleKey, title), (authorKey, author)]⟩))
              (temp_path path),
            alSet st.cache path (title, author)⟩, true) := by
      simp [update_single, h1, hd, h2, h3]
    rw [hu]
    show alGet _ path = _
    rw [alGet_alRemove_ne _ _ _ (temp_path_ne path), alGet_alSet_self]

/-- Closed instance of C5_rewrite_result at a concrete document. -/
theorem C5_witness :
    alGet (update_single noFault
        ⟨[((("c.pdf").data), FileContent.pdf ⟨[3, 4], []⟩)], []⟩
        (("c.pdf").data) (("T").data) (("A").data)).1.fs (("c.pdf").data)
      = some (FileContent.pdf
          ⟨[3, 4], [(titleKey, ("T").data), (authorKey, ("A").data)]⟩) :=
  C5_rewrite_result noFault
    ⟨[((("c.pdf").data), FileContent.pdf ⟨[3, 4], []⟩)], []⟩
    (("c.pdf").data) (("T").data) (("A").data) ⟨[3, 4], []⟩
    (by decide) (by decide)

/-- C6 is false as stated: the batch rewriter hands the caller only the
aggregate success count.  Two batches over the same two paths in which
a different single path fails produce the same return value, so the
caller cannot tell from the return which path failed, even though the
final states differ. -/
theorem C6_counterexample :
    batchReturn ⟨[((("a.pdf").data), FileContent.pdf ⟨[1], []⟩),
                  ((("b.pdf").data), FileContent.pdf ⟨[2], []⟩)], []⟩
        [(⟨true, false, false, none⟩, (("a.pdf").data), ("T").data, ("A").data),
         (noFault, (("b.pdf").data), ("T").data, ("A").data)]
      = batchReturn ⟨[((("a.pdf").data), FileContent.pdf ⟨[1], []⟩),
                  ((("b.pdf").data), FileContent.pdf ⟨[2], []⟩)], []⟩
        [(noFault, (("a.pdf").data), ("T").data, ("A").data),
         (⟨true, false, false, none⟩, (("b.pdf").data), ("T").data, ("A").data)] ∧
    (batchOutcomes ⟨[((("a.pdf").data), FileContent.pdf ⟨[1], []⟩),
                  ((("b.pdf").data), FileContent.pdf ⟨[2], []⟩)], []⟩
        [(⟨true, false, false, none⟩, (("a.pdf").data), ("T").data, ("A").data),
         (noFault, (("b.pdf").data), ("T").data, ("A").data)]).2
      ≠ (batchOutcomes ⟨[((("a.pdf").data), FileContent.pdf ⟨[1], []⟩),
                  ((("b.pdf").data), FileContent.pdf ⟨[2], []⟩)], []⟩
        [(noFault, (("a.pdf").data), ("T").data, ("A").data),
         (⟨true, false, false, none⟩, (("b.pdf").data), ("T").data, ("A").data)]).2 := by
  decide

/-- C6 (amended): the batch rewriter returns only the count of
successful rewrites; that count equals the number of per-path successes
of the ghost outcome report, but the report itself is not part of the
return value. -/
theorem C6_returns_count (st : RWState)
    (updates : List (FaultSpec × Str × Str × Str)) :
    (update_pdf_metadata_batch st updates).1 = (batchOutcomes st updates).1 ∧
    batchReturn st updates
      = ((batchOutcomes st updates).2.filter (fun o => o.2)).length := by
  induction updates generalizing st with
  | nil => exact ⟨rfl, rfl⟩
  | cons u rest ih =>
    simp only [update_pdf_metadata_batch, batchOutcomes, batchReturn] at ih ⊢
    cases hr : (update_single u.1 st u.2.1 u.2.2.1 u.2.2.2).2 <;>
      simp [List.filter_cons, hr, (ih (update_single u.1 st u.2.1 u.2.2.1 u.2.2.2).1).1,
        (ih (update_single u.1 st u.2.1 u.2.2.1 u.2.2.2).1).2, Nat.add_comm]

theorem processLoop_records_len (fs : FS) (l : List (Str × Str)) :
    ∀ (cache : Cache) (total completed : Nat),
      (processLoop fs cache total completed l).2.1.length = l.length := by
  induction l with
  | nil => intro _ _ _; rfl
  | cons fi rest ih =>
    intro cache total completed
    simp only [processLoop, List.length_cons]
    rw [ih]

theorem processLoop_progress (fs : FS) (l : List (Str × Str)) :
    ∀ (cache : Cache) (total completed : Nat),
      (processLoop fs cache total completed l).2.2
        = (List.range l.length).map (fun i => (completed + 1 + i, total)) := by
  induction l with
  | nil => intro _ _ _; rfl
  | cons fi rest ih =>
    intro cache total completed
    simp only [processLoop, List.length_cons]
    rw [ih, List.range_succ_eq_map]
    simp only [List.map_cons, List.map_map, Function.comp]
    congr 1
    apply List.map_congr_left
    intro i _
    have harith : completed + 1 + 1 + i = completed + 1 + (i + 1) := by omega
    simp [Nat.succ_eq_add_one, harith]

theorem processLoop_get (fs : FS) (l : List (Str × Str)) :
    ∀ (cache : Cache) (total completed i : Nat),
      ((processLoop fs cache total completed l).2.1.get? i).map
          (fun r => (r.filename, r.path))
        = (l.get? i).map (fun fi => (fi.2, os_path_join fi.1 fi.2)) := by
  induction l with
  | nil => intro _ _ _ i; rfl
  | cons fi rest ih =>
    intro cache total completed i
    cases i with
    | zero => rfl
    | succ n =>
      simp only [processLoop]
      exact ih _ _ _ n

theorem process_single_pdf_fail (cache : Cache) (fs : FS) (root fn : Str)
    (hmiss : alGet cache (os_path_join root fn) = none)
    (hfail : readPdfMetadata fs (os_path_join root fn) = none) :
    (process_single_pdf cache fs root fn).2.meta_title = [] ∧
    (process_single_pdf cache fs root fn).2.meta_author = [] := by
  simp [process_single_pdf, extract_metadata_from_pdf_safe, hmiss, hfail]

/-- C7: the reconciliation loop produces exactly one record per
filtered input file (the i-th record carries the i-th file's name and
joined path), emits the progress pairs (1, total), (2, total), ...,
(total, total) — completed strictly increasing, total fixed at the
input size — and returns only after every unit is processed; a unit
whose extraction fails still contributes its record, with empty
document-side fields. -/
theorem C7_one_record_per_file (cache : Cache) (fs : FS)
    (walk : List (Str × List Str)) :
    (collect_pdfs_recursively cache fs walk).2.1.length
      = (collectFileList walk).length ∧
    (collect_pdfs_recursively cache fs walk).2.2
      = (List.range (collectFileList walk).length).map
          (fun i => (i + 1, (collectFileList walk).length)) ∧
    (∀ i : Nat,
        ((collect_pdfs_recursively cache fs walk).2.1.get? i).map
            (fun r => (r.filename, r.path))
          = ((collectFileList walk).get? i).map
              (fun fi => (fi.2, os_path_join fi.1 fi.2))) ∧
    (∀ (c : Cache) (root fn : Str),
        alGet c (os_path_join root fn) = none →
        readPdfMetadata fs (os_path_join root fn) = none →
        (process_single_pdf c fs root fn).2.meta_title = [] ∧
        (process_single_pdf c fs root fn).2.meta_author = []) := by
  refine ⟨processLoop_records_len fs _ cache _ 0, ?_,
    fun i => processLoop_get fs _ cache _ 0 i,
    fun c root fn hm hf => process_single_pdf_fail c fs root fn hm hf⟩
  rw [collect_pdfs_recursively, processLoop_progress]
  apply List.map_congr_left
  intro i _
  have harith : 0 + 1 + i = i + 1 := by omega
  rw [harith]

/-- Closed instance of C7_one_record_per_file: a concrete failing unit
still yields a record with empty document-side fields. -/
theorem C7_witness :
    (process_single_pdf [] [] (("r").data) (("x.pdf").data)).2.meta_title = [] :=
  (((C7_one_record_per_file [] [] []).2.2.2) [] (("r").data) (("x.pdf").data)
    (by decide) (by decide)).1


/-- C8 is false as stated: in the record for "Alice - BookOne.pdf" the
code assigns the second regex group to the filename-derived title, so
that title is "BookOne", not "Alice" (source line 48 binds the first
group to fn_author). -/
theorem C8_counterexample :
    (scenarioRecords.get? 0).map (fun r => r.fn_title)
      = some (("BookOne").data) ∧
    ¬ (some (("BookOne").data) = some (("Alice").data)) := by decide

/-- C8 (amended): the scenario scan yields exactly two records; the
record of "Alice - BookOne.pdf" has filename-derived title "BookOne"
and author "Alice" (the claim's title/author assignment swapped),
document candidate ("Wrong", "Alice"), and mismatch true; the record of
"NoPattern.pdf" has filename-derived title "NoPattern" and author "",
document candidate ("", ""), and mismatch true. -/
theorem C8_scan_scenario :
    scenarioRecords.length = 2 ∧
    (scenarioRecords.get? 0).map
        (fun r => (r.fn_title, r.fn_author, r.meta_title, r.meta_author,
          mismatch_of (rowOf r)))
      = some ((("BookOne").data), (("Alice").data), (("Wrong").data),
          (("Alice").data), true) ∧
    (scenarioRecords.get? 1).map
        (fun r => (r.fn_title, r.fn_author, r.meta_title, r.meta_author,
          mismatch_of (rowOf r)))
      = some ((("NoPattern").data), ([] : Str), ([] : Str), ([] : Str), true) := by
  refine ⟨by decide, by decide, by decide⟩

theorem matchTail_exact (B : Str) (hB : ¬ B = []) (hnB : ¬ '\n' ∈ B) :
    matchTail (B ++ pdfExt) = some B := by
  rw [matchTail, if_pos (List.suffix_append B pdfExt)]
  have h4 : (B ++ pdfExt).length - 4 = B.length := by
    rw [List.length_append]
    rfl
  simp only [h4, List.take_left]
  rw [if_neg (not_or.mpr ⟨hB, hnB⟩)]

theorem findSplit_exact (B : Str) (hB : ¬ B = []) (hnB : ¬ '\n' ∈ B) :
    ∀ A2 A1 : Str, ¬ A2 = [] → (∀ c ∈ A2, ¬ c = '\n') →
      (∀ A2a A2b : Str, A2 = A2a ++ A2b → ¬ A2a = [] → ¬ A2b = [] →
          ¬ (sepStr <+: (A2b ++ (sepStr ++ (B ++ pdfExt))))) →
      findSplit A1 (A2 ++ (sepStr ++ (B ++ pdfExt))) = some (A1 ++ A2, B) := by
  intro A2
  induction A2 with
  | nil => intro A1 h _ _; exact (h rfl).elim
  | cons a A2' ih =>
    intro A1 _ hnl hsep
    rw [List.cons_append]
    simp only [findSplit]
    rw [if_neg (hnl a (List.mem_cons_self a A2'))]
    cases A2' with
    | nil =>
      rw [List.nil_append, if_pos (List.prefix_append sepStr (B ++ pdfExt))]
      have hdrop : (sepStr ++ (B ++ pdfExt)).drop 3 = B ++ pdfExt := rfl
      rw [hdrop, matchTail_exact B hB hnB]
    | cons b A2b =>
      have hns : ¬ (sepStr <+: ((b :: A2b) ++ (sepStr ++ (B ++ pdfExt)))) :=
        hsep [a] (b :: A2b) rfl (by simp) (by simp)
      rw [if_neg hns]
      have ih2 := ih (A1 ++ [a]) (by simp)
        (fun c hc => hnl c (List.mem_cons_of_mem a hc))
        (fun A2a A2c heq ha hc =>
          hsep (a :: A2a) A2c (by rw [heq, List.cons_append]) (by simp) hc)
      rw [ih2, List.append_assoc]
      rfl

/-- C4 is false as stated: the regex is compiled without re.IGNORECASE,
so a filename with an uppercase ".PDF" extension does not match even
though it fits the pattern under a case-insensitive extension; it falls
to the no-match branch instead of returning the two groups. -/
theorem C4_counterexample :
    extract_metadata_from_filename (("A - B.PDF").data) = ([], ("A - B").data) ∧
    ¬ extract_metadata_from_filename (("A - B.PDF").data)
        = ((("A").data), (("B").data)) := by decide

/-- C4 (amended): the extension comparison is case-sensitive — only a
lowercase ".pdf" tail matches.  For a filename A ++ " - " ++ B ++
".pdf" with A and B non-empty and newline-free and with no earlier
" - " occurrence (the non-greedy split), the parser returns the two
groups with surrounding whitespace stripped; every non-matching
filename yields an empty primary and the filename with its extension
stripped; the function is total. -/
theorem C4_filename_pattern (A B : Str) (hA : ¬ A = []) (hB : ¬ B = [])
    (hnA : ∀ c ∈ A, ¬ c = '\n') (hnB : ¬ '\n' ∈ B)
    (hsep : ∀ j : Nat, j < A.length → 0 < j →
        ¬ (sepStr <+: ((A ++ (sepStr ++ (B ++ pdfExt))).drop j))) :
    extract_metadata_from_filename (A ++ (sepStr ++ (B ++ pdfExt)))
      = (pyStrip A, pyStrip B) ∧
    (∀ f : Str, findSplit [] f = none →
        extract_metadata_from_filename f = ([], splitextRoot f)) := by
  constructor
  · have hsep2 : ∀ A2a A2b : Str, A = A2a ++ A2b → ¬ A2a = [] → ¬ A2b = [] →
        ¬ (sepStr <+: (A2b ++ (sepStr ++ (B ++ pdfExt)))) := by
      intro A2a A2b heq ha hb
      have hj := hsep A2a.length
        (by rw [heq, List.length_append]
            cases A2b with
            | nil => exact (hb rfl).elim
            | cons x xs => simp)
        (by cases A2a with
            | nil => exact (ha rfl).elim
            | cons x xs => simp)
      rw [heq, List.append_assoc, List.drop_left] at hj
      exact hj
    have h := findSplit_exact B hB hnB A [] hA hnA hsep2
    rw [List.nil_append] at h
    rw [extract_metadata_from_filename, h]
  · intro f hf
    rw [extract_metadata_from_filename, hf]

/-- Closed instance of C4_filename_pattern at a concrete matching filename. -/
theorem C4_witness :
    extract_metadata_from_filename
        ((("Ann").data) ++ (sepStr ++ ((("Book").data) ++ pdfExt)))
      = (pyStrip (("Ann").data), pyStrip (("Book").data)) :=
  (C4_filename_pattern (("Ann").data) (("Book").data) (by decide) (by decide)
    (by decide) (by decide) (by decide)).1

/-- Closed instance of C10_temp_file_scanned: a concrete leftover
temporary file is listed by the scanner's first pass. -/
theorem C10_witness :
    ((("r").data), temp_path (("a.pdf").data)) ∈
      collectFileList [((("r").data), [temp_path (("a.pdf").data)])] :=
  C10_temp_file_scanned.2.2 [((("r").data), [temp_path (("a.pdf").data)])]
    (("r").data) (("a.pdf").data) [temp_path (("a.pdf").data)]
    (by decide) (by decide)

end PdfMetaEditor
